import Mathlib

/-!
Shallow embedding of libpaper (src/libpaper/paper.c) and verification of the
spec's claims about it.

Modelling decisions, each noted at the definition it concerns:
* dimensions and unit factors are exact rationals (the C code uses
  float/double; the spec's claims about dimensions are algebraic, "exact
  under floating-point tolerance");
* a whitespace-delimited token (the output of `gettok`) is carried together
  with the result C `strtod` would produce on its text, since `strtod` is
  libc code outside the repository;
* the gnulib hash table (`hash.h`/`hash.c`) is not among the sources; its
  insert/lookup operations are modelled from the spec where the spec speaks
  (replace-on-duplicate), with the repository's own `paperhash`/`papereq`
  (case-insensitive name comparison) as the key equality;
* `malloc`/`strdup` are modelled as always succeeding (heap exhaustion is
  outside the embedding);
* environment variables, the specification file, the configuration file and
  the locale facility are explicit parameters (`Option`-valued where the
  source treats them as possibly absent).
-/

namespace Libpaper

/-- Case folding of one character, modelling C `tolower` as used by
`strcasecmp` (ASCII, which is what `tolower` does in the POSIX locale). -/
def lowerStr (s : String) : List Char :=
  s.data.map Char.toLower

/-- Model of `strcasecmp(s, t) == 0`: equality of the case-folded strings. -/
def caseEq (s t : String) : Bool :=
  decide (lowerStr s = lowerStr t)

/-- The static unit table of paper.c lines 32-44: inches per unit,
as exact rationals (the C table stores the same constants as `float`). -/
def units : List (String × Rat) :=
  [("in", 1), ("ft", 12), ("pt", 1/72),
   ("m", 10000/254), ("dm", 1000/254), ("cm", 100/254), ("mm", 10/254)]

/-- Function `unitfactor` (paper.c lines 46-53): first case-insensitive match in the
table, 0 when the unit is unrecognized. -/
def unitfactor (unit : String) : Rat :=
  match units.find? (fun u => caseEq u.1 unit) with
  | some u => u.2
  | none => 0

/-- A token as returned by `gettok` (paper.c lines 79-91): its text, together
with the value C `strtod` returns on that text and whether `strtod` sets
`errno` there. `strtod` is libc code, not part of this repository: glibc
sets `errno` (to `ERANGE`) exactly on out-of-range input, and returns the
parsed value otherwise -- a non-numeric token yields value 0 with `errno`
untouched. -/
structure Tok where
  str : String
  val : Rat
  err : Bool
deriving Repr, DecidableEq

/-- One content line of a tokenized file: gettokline guarantees it is
neither blank nor a comment, and paperinit reads its first four tokens. -/
abbrev Line := List Tok

/-- Record type `struct paper` (paper.c lines 93-96). -/
structure Paper where
  name : String
  pswidth : Rat
  psheight : Rat
deriving Repr, DecidableEq

/-- The `papers` hash table, as the sequence its iteration
(`paperfirst`/`papernext`) produces; the hash order is unspecified, the
model uses insertion order. -/
abbrev Catalog := List Paper

/-- Modelled from the spec: `hash_insert` (gnulib hash.c, not among the
sources) keyed by the repository's `papereq` (case-insensitive name
equality, paper.c lines 102-104). Per the spec, "if `name` already exists
(case-insensitive), the new record replaces the old one"; otherwise the
record is added. -/
def hash_insert (cat : Catalog) (p : Paper) : Catalog :=
  if cat.any (fun q => caseEq q.name p.name) then
    cat.map (fun q => if caseEq q.name p.name then p else q)
  else
    cat ++ [p]

/-- Function `paperinfo` (paper.c lines 252-257): `hash_lookup` of a probe record
carrying only the name, so the match is exactly `papereq`, i.e.
case-insensitive name equality. `hash_lookup` (gnulib, not among the
sources) is modelled from the spec as "case-insensitive exact match". -/
def paperinfo (cat : Catalog) (paper : String) : Option Paper :=
  cat.find? (fun q => caseEq q.name paper)

/-- Processing of one content line inside `paperinit`'s loop
(paper.c lines 121-153): split off the first four tokens; with fewer than
three tokens ret = 2; otherwise parse width and height (`errno` from
`strtod` sets ret = 1), apply the unit factor when a fourth token is
present (an unrecognized unit sets ret = 1 and leaves the numbers
unconverted), and insert the record -- the insertion happens even when ret
was already set on this line. Returns the line's ret and the new table. -/
def procline (cat : Catalog) (l : Line) : Int × Catalog :=
  match l with
  | name :: wstr :: hstr :: rest =>
      let perr : Bool := wstr.err || hstr.err
      match rest.head? with
      | some unit =>
          if unitfactor unit.str = 0 then
            (1, hash_insert cat ⟨name.str, wstr.val, hstr.val⟩)
          else
            ((if perr then 1 else 0),
             hash_insert cat
               ⟨name.str, wstr.val * unitfactor unit.str,
                hstr.val * unitfactor unit.str⟩)
      | none =>
          ((if perr then 1 else 0), hash_insert cat ⟨name.str, wstr.val, hstr.val⟩)
  | _ => (2, cat)

/-- The loop of `paperinit` (paper.c line 121): lines are consumed while
ret is still 0, so processing stops after the first erroneous line. -/
def paperinitLines (cat : Catalog) : List Line → Int × Catalog
  | [] => (0, cat)
  | l :: ls =>
      if (procline cat l).1 = 0 then paperinitLines (procline cat l).2 ls
      else procline cat l

/-- Function `paperinit` (paper.c lines 114-159). The argument is the tokenized
specification file: `none` models `fopen(PAPERSPECS)` failing (ret = -1),
`some ls` its content lines. The global `papers` table is initialized to an
empty table before the file is opened, so a table is returned in every
case. -/
def paperinit (file : Option (List Line)) : Int × Catalog :=
  match file with
  | none => (-1, [])
  | some ls => paperinitLines [] ls

/-- Function `paperwithsize` (paper.c lines 259-268): scan the catalog in iteration
order, first record with exactly equal width and height. -/
def paperwithsize (cat : Catalog) (pswidth psheight : Rat) : Option Paper :=
  cat.find? (fun p => p.pswidth == pswidth && p.psheight == psheight)

/-- Macro `PT_TO_MM` (paper.c line 205): `(unsigned int)((v * 2.54 * 10 / 72) + 0.5)`,
truncation of a non-negative value, i.e. the floor. -/
def PT_TO_MM (v : Rat) : Int :=
  Int.floor (v * 254 / 720 + 1/2)

/-- Function `defaultpapername` (paper.c lines 199-218). `locale = some (w, h)`
models a platform whose `LC_PAPER` facility reports width and height `w`,
`h` in millimetres; `none` models a platform without the facility (the
`#if` block compiled out). The function reads no environment variable: it
scans the catalog for a record whose dimensions convert to the locale's
millimetre values and otherwise returns the compiled-in `PAPERSIZE`. -/
def defaultpapername (locale : Option (Int × Int)) (cat : Catalog)
    (PAPERSIZE : String) : String :=
  match locale with
  | some (w, h) =>
      match cat.find? (fun pp =>
          PT_TO_MM pp.pswidth == w && PT_TO_MM pp.psheight == h) with
      | some pp => pp.name
      | none => PAPERSIZE
  | none => PAPERSIZE

/-- Function `systempapername` (paper.c lines 220-250). `env` is
`getenv(PAPERSIZEVAR)` (`none` when unset); `conf` is the first token of
the first content line of the configuration file (`none` when the file is
absent, unreadable or has no content line -- the source's `stat`/`fopen`/
`gettokline` failures all leave `paperstr` null). When neither source
yields a name, the compiled-in `PAPERSIZE` is used. The resulting name is
then looked up: a case-insensitive catalog hit makes the function return
the record's stored name (the source's `strcpy(paperstr, pp->name)`, safe
because case-insensitively equal ASCII strings have equal length),
otherwise the name is returned unchanged. -/
def systempapername (env : Option String) (conf : Option String)
    (cat : Catalog) (PAPERSIZE : String) : String :=
  let paperstr :=
    match env with
    | some e => e
    | none =>
        match conf with
        | some c => c
        | none => PAPERSIZE
  match paperinfo cat paperstr with
  | some pp => pp.name
  | none => paperstr

/-- The name a line would contribute: its first token's text. -/
def lineName : Line → String
  | t :: _ => t.str
  | [] => ""

/-- The record `procline` inserts for a line, `none` when the line has
fewer than three tokens and inserts nothing. -/
def lineRecord : Line → Option Paper
  | name :: wstr :: hstr :: rest =>
      match rest.head? with
      | some unit =>
          if unitfactor unit.str = 0 then
            some ⟨name.str, wstr.val, hstr.val⟩
          else
            some ⟨name.str, wstr.val * unitfactor unit.str,
                  hstr.val * unitfactor unit.str⟩
      | none => some ⟨name.str, wstr.val, hstr.val⟩
  | _ => none

/-- The ret value `procline` produces for a line. -/
def lineRet : Line → Int
  | _ :: wstr :: hstr :: rest =>
      match rest.head? with
      | some unit =>
          if unitfactor unit.str = 0 then 1
          else if wstr.err || hstr.err then 1 else 0
      | none => if wstr.err || hstr.err then 1 else 0
  | _ => 2

theorem procline_eq (cat : Catalog) (l : Line) :
    procline cat l =
      (lineRet l,
       match lineRecord l with
       | some p => hash_insert cat p
       | none => cat) := by
  match l with
  | [] => rfl
  | [_] => rfl
  | [_, _] => rfl
  | name :: wstr :: hstr :: rest =>
      cases rest with
      | nil =>
          by_cases hp : (wstr.err || hstr.err) = true <;>
            simp [procline, lineRet, lineRecord, hp]
      | cons u rs =>
          by_cases hu : unitfactor u.str = 0
          · simp [procline, lineRet, lineRecord, hu]
          · by_cases hp : (wstr.err || hstr.err) = true <;>
              simp [procline, lineRet, lineRecord, hu, hp]

theorem caseEq_iff (s t : String) : caseEq s t = true ↔ lowerStr s = lowerStr t := by
  simp [caseEq]

theorem caseEq_refl (s : String) : caseEq s s = true := by
  simp [caseEq]

theorem caseEq_symm {s t : String} (h : caseEq s t = true) : caseEq t s = true := by
  rw [caseEq_iff] at h ⊢; exact h.symm

theorem caseEq_trans {s t u : String} (h₁ : caseEq s t = true)
    (h₂ : caseEq t u = true) : caseEq s u = true := by
  rw [caseEq_iff] at h₁ h₂ ⊢; exact h₁.trans h₂

theorem caseEq_false_of_ne {s t u : String} (h : caseEq s t = true)
    (hne : caseEq s u = false) : caseEq t u = false := by
  cases hcu : caseEq t u with
  | false => rfl
  | true => rw [caseEq_trans h hcu] at hne; cases hne

/-- Looking up any case variant of a freshly inserted record's name finds
that record. -/
theorem paperinfo_insert_match (cat : Catalog) (p : Paper) (q : String)
    (hq : caseEq q p.name = true) :
    paperinfo (hash_insert cat p) q = some p := by
  have hpq : caseEq p.name q = true := caseEq_symm hq
  unfold hash_insert
  by_cases hany : cat.any (fun r => caseEq r.name p.name) = true
  · rw [if_pos hany]
    unfold paperinfo
    induction cat with
    | nil => simp at hany
    | cons r rs ih =>
        by_cases hr : caseEq r.name p.name = true
        · simp [List.find?_cons, hr, hpq]
        · have hrq : caseEq r.name q = false := by
            cases h : caseEq r.name q with
            | false => rfl
            | true => rw [caseEq_trans h hq] at hr; simp at hr
          have hany' : rs.any (fun r => caseEq r.name p.name) = true := by
            simpa [hr] using hany
          have hrfalse : caseEq r.name p.name = false := by simpa using hr
          simp only [List.map_cons, List.find?_cons, hrfalse, Bool.false_eq_true,
            reduceIte, hrq]
          exact ih hany'
  · rw [if_neg hany]
    unfold paperinfo
    rw [List.find?_append]
    have hnone : cat.find? (fun r => caseEq r.name q) = none := by
      rw [List.find?_eq_none]
      intro r hrmem
      simp only [Bool.not_eq_true]
      cases h : caseEq r.name q with
      | false => rfl
      | true =>
          exfalso
          have hmatch : caseEq r.name p.name = true := caseEq_trans h hq
          exact hany (List.any_of_mem (p := fun r => caseEq r.name p.name) hrmem hmatch)
    simp [hnone, List.find?_cons, hpq]

/-- Looking up a name that is not a case variant of the inserted record's
name is unaffected by the insertion. -/
theorem paperinfo_insert_other (cat : Catalog) (p : Paper) (q : String)
    (hq : caseEq q p.name = false) :
    paperinfo (hash_insert cat p) q = paperinfo cat q := by
  have hpq : caseEq p.name q = false := by
    cases h : caseEq p.name q with
    | false => rfl
    | true => rw [caseEq_symm h] at hq; cases hq
  have hmap : ∀ cs : Catalog,
      (cs.map (fun r => if caseEq r.name p.name then p else r)).find?
          (fun r => caseEq r.name q)
        = cs.find? (fun r => caseEq r.name q) := by
    intro cs
    induction cs with
    | nil => rfl
    | cons r rs ih =>
        by_cases hr : caseEq r.name p.name = true
        · have hrq : caseEq r.name q = false := by
            cases h : caseEq r.name q with
            | false => rfl
            | true =>
                have := caseEq_trans (caseEq_symm hr) h
                rw [this] at hpq; cases hpq
          simp only [List.map_cons, hr, if_true, List.find?_cons, hpq, hrq]
          exact ih
        · have hrfalse : caseEq r.name p.name = false := by simpa using hr
          simp only [List.map_cons, List.find?_cons, hrfalse, Bool.false_eq_true,
            reduceIte]
          cases hrq : caseEq r.name q with
          | false => simp only [hrq]; exact ih
          | true => simp only [hrq]
  unfold hash_insert
  by_cases hany : cat.any (fun r => caseEq r.name p.name) = true
  · rw [if_pos hany]
    exact hmap cat
  · rw [if_neg hany]
    unfold paperinfo
    rw [List.find?_append]
    simp [List.find?_cons, hpq]

theorem lineRecord_name (l : Line) (p : Paper) (h : lineRecord l = some p) :
    p.name = lineName l := by
  match l with
  | [] => simp [lineRecord] at h
  | [_] => simp [lineRecord] at h
  | [_, _] => simp [lineRecord] at h
  | name :: wstr :: hstr :: rest =>
      cases rest with
      | nil =>
          have h' : some (⟨name.str, wstr.val, hstr.val⟩ : Paper) = some p := h
          cases h'
          rfl
      | cons u rs =>
          by_cases hu : unitfactor u.str = 0
          · have h' : some (⟨name.str, wstr.val, hstr.val⟩ : Paper) = some p := by
              rw [← h]; simp [lineRecord, hu]
            cases h'
            rfl
          · have h' : some (⟨name.str, wstr.val * unitfactor u.str,
                hstr.val * unitfactor u.str⟩ : Paper) = some p := by
              rw [← h]; simp [lineRecord, hu]
            cases h'
            rfl

/-- Processing a line whose name is not a case variant of `q` does not
change what looking up `q` finds. -/
theorem procline_lookup_no_match (cat : Catalog) (l : Line) (q : String)
    (h : caseEq q (lineName l) = false) :
    paperinfo (procline cat l).2 q = paperinfo cat q := by
  rw [procline_eq]
  cases hrec : lineRecord l with
  | none => simp only [hrec]
  | some p =>
      simp only [hrec]
      have hq : caseEq q p.name = false := by
        rw [lineRecord_name l p hrec]; exact h
      exact paperinfo_insert_other cat p q hq

/-- Running the construction loop over lines none of whose names is a case
variant of `q` does not change what looking up `q` finds. -/
theorem paperinitLines_lookup_no_match (ls : List Line) (cat : Catalog) (q : String)
    (h : ∀ l ∈ ls, caseEq q (lineName l) = false) :
    paperinfo (paperinitLines cat ls).2 q = paperinfo cat q := by
  induction ls generalizing cat with
  | nil => rfl
  | cons a ls ih =>
      have ha := h a (List.mem_cons_self a ls)
      have hrest : ∀ l ∈ ls, caseEq q (lineName l) = false :=
        fun l hl => h l (List.mem_cons_of_mem a hl)
      unfold paperinitLines
      by_cases hret : (procline cat a).1 = 0
      · rw [if_pos hret, ih _ hrest, procline_lookup_no_match cat a q ha]
      · rw [if_neg hret]
        exact procline_lookup_no_match cat a q ha

/-- A file all of whose lines are clean builds with ret = 0. -/
theorem paperinitLines_ret_ok (ls : List Line) (cat : Catalog)
    (h : ∀ l ∈ ls, lineRet l = 0) :
    (paperinitLines cat ls).1 = 0 := by
  induction ls generalizing cat with
  | nil => rfl
  | cons a ls ih =>
      have ha : lineRet a = 0 := h a (List.mem_cons_self a ls)
      have hret : (procline cat a).1 = 0 := by rw [procline_eq]; exact ha
      unfold paperinitLines
      rw [if_pos hret]
      exact ih _ (fun l hl => h l (List.mem_cons_of_mem a hl))

/-- The loop stops at the first erroneous line: the lines after it are
never read, and the returned ret is that line's ret. -/
theorem paperinitLines_stop (pre : List Line) (post : List Line) (l : Line)
    (cat : Catalog) (hpre : ∀ x ∈ pre, lineRet x = 0) (herr : lineRet l ≠ 0) :
    paperinitLines cat (pre ++ l :: post) = paperinitLines cat (pre ++ [l]) ∧
    (paperinitLines cat (pre ++ l :: post)).1 = lineRet l := by
  induction pre generalizing cat with
  | nil =>
      simp only [List.nil_append]
      have hret1 : (procline cat l).1 = lineRet l := by rw [procline_eq]
      have hne : ¬ (procline cat l).1 = 0 := by rw [hret1]; exact herr
      constructor
      · unfold paperinitLines
        rw [if_neg hne, if_neg hne]
      · unfold paperinitLines
        rw [if_neg hne]
        exact hret1
  | cons a pre ih =>
      have ha : lineRet a = 0 := hpre a (List.mem_cons_self a _)
      have hret : (procline cat a).1 = 0 := by rw [procline_eq]; exact ha
      simp only [List.cons_append]
      unfold paperinitLines
      rw [if_pos hret, if_pos hret]
      exact ih _ (fun x hx => hpre x (List.mem_cons_of_mem a hx))

/-- A line with fewer than three tokens yields ret = 2, and conversely. -/
theorem lineRet_two_iff (l : Line) : lineRet l = 2 ↔ l.length < 3 := by
  match l with
  | [] => simp [lineRet]
  | [_] => simp [lineRet]
  | [_, _] => simp [lineRet]
  | _ :: wstr :: hstr :: rest =>
      cases rest with
      | nil =>
          by_cases hp : (wstr.err || hstr.err) = true <;>
            simp [lineRet, hp, List.length]
      | cons u rs =>
          by_cases hu : unitfactor u.str = 0
          · simp [lineRet, hu, List.length]
          · by_cases hp : (wstr.err || hstr.err) = true <;>
              simp [lineRet, hu, hp, List.length]

/-- A line yields ret = 1 exactly when it has at least three tokens and
either width or height made strtod set errno, or a fourth token is present
and is not a recognized unit. -/
theorem lineRet_one_iff (l : Line) :
    lineRet l = 1 ↔
      ∃ n w h r, l = n :: w :: h :: r ∧
        (w.err = true ∨ h.err = true ∨
         ∃ u, r.head? = some u ∧ unitfactor u.str = 0) := by
  match l with
  | [] => simp [lineRet]
  | [a] => simp [lineRet]
  | [a, b] =>
      simp only [lineRet]
      constructor
      · intro h; cases h
      · rintro ⟨n, w, h, r, heq, _⟩
        cases heq
  | name :: wstr :: hstr :: rest =>
      constructor
      · intro h1
        refine ⟨name, wstr, hstr, rest, rfl, ?_⟩
        cases rest with
        | nil =>
            simp only [lineRet] at h1
            by_cases hp : (wstr.err || hstr.err) = true
            · rcases Bool.or_eq_true_iff.mp hp with hw | hh
              · exact Or.inl hw
              · exact Or.inr (Or.inl hh)
            · rw [if_neg hp] at h1; exact absurd h1 (by decide)
        | cons u rs =>
            by_cases hu : unitfactor u.str = 0
            · exact Or.inr (Or.inr ⟨u, rfl, hu⟩)
            · simp only [lineRet, List.head?, hu, if_false] at h1
              by_cases hp : (wstr.err || hstr.err) = true
              · rcases Bool.or_eq_true_iff.mp hp with hw | hh
                · exact Or.inl hw
                · exact Or.inr (Or.inl hh)
              · rw [if_neg hp] at h1; exact absurd h1 (by decide)
      · rintro ⟨n, w, h, r, heq, hcause⟩
        cases heq
        cases rest with
        | nil =>
            rcases hcause with hw | hh | ⟨u, hu, _⟩
            · simp [lineRet, hw]
            · simp [lineRet, hh]
            · cases hu
        | cons u rs =>
            by_cases hufac : unitfactor u.str = 0
            · simp [lineRet, hufac]
            · rcases hcause with hw | hh | ⟨u', hu', hufac'⟩
              · simp [lineRet, hufac, hw]
              · simp [lineRet, hufac, hh]
              · have huu : u = u' := by simpa using hu'
                rw [← huu] at hufac'
                exact absurd hufac' hufac

/-- After a clean run of the construction loop over lines with pairwise
case-insensitively distinct names, looking up any case variant of a line's
name finds exactly the record that line contributed. -/
theorem paperinitLines_lookup (ls : List Line) (cat : Catalog) (l : Line)
    (p : Paper) (q : String)
    (hdist : ls.Pairwise (fun a b => caseEq (lineName a) (lineName b) = false))
    (hret : (paperinitLines cat ls).1 = 0)
    (hmem : l ∈ ls) (hp : lineRecord l = some p)
    (hq : caseEq q (lineName l) = true) :
    paperinfo (paperinitLines cat ls).2 q = some p := by
  induction ls generalizing cat with
  | nil => cases hmem
  | cons a ls ih =>
      by_cases hreta : (procline cat a).1 = 0
      · have hstep : paperinitLines cat (a :: ls) =
            paperinitLines (procline cat a).2 ls := by
          conv_lhs => rw [paperinitLines]
          rw [if_pos hreta]
        rw [hstep] at hret ⊢
        rcases List.mem_cons.mp hmem with rfl | hmem'
        · have hnomatch : ∀ x ∈ ls, caseEq q (lineName x) = false := by
            intro x hx
            have hax : caseEq (lineName l) (lineName x) = false :=
              (List.pairwise_cons.mp hdist).1 x hx
            cases hqx : caseEq q (lineName x) with
            | false => rfl
            | true =>
                have hlx := caseEq_trans (caseEq_symm hq) hqx
                rw [hlx] at hax; cases hax
          rw [paperinitLines_lookup_no_match ls _ q hnomatch]
          rw [procline_eq]
          simp only [hp]
          exact paperinfo_insert_match cat p q
            (by rw [lineRecord_name l p hp]; exact hq)
        · exact ih _ (List.pairwise_cons.mp hdist).2 hret hmem'
      · have hfail : paperinitLines cat (a :: ls) = procline cat a := by
          conv_lhs => rw [paperinitLines]
          rw [if_neg hreta]
        rw [hfail] at hret
        exact absurd hret hreta

/-- C1 is false as stated: in a specification file whose two lines carry
the case-insensitively equal names "a4" and "A4", construction succeeds,
yet `paperinfo "a4"` does not return the record built from the first line
(a single lookup result cannot coincide with the records of both lines). -/
theorem C1_counterexample :
    (paperinit (some [[⟨"a4", 0, false⟩, ⟨"1", 1, false⟩, ⟨"2", 2, false⟩],
                      [⟨"A4", 0, false⟩, ⟨"3", 3, false⟩, ⟨"4", 4, false⟩]])).1 = 0 ∧
    paperinfo (paperinit (some
        [[⟨"a4", 0, false⟩, ⟨"1", 1, false⟩, ⟨"2", 2, false⟩],
         [⟨"A4", 0, false⟩, ⟨"3", 3, false⟩, ⟨"4", 4, false⟩]])).2 "a4"
      ≠ some ⟨"a4", 1, 2⟩ := by
  decide

/-- C1 (amended): for every valid specification file whose line names are
pairwise case-insensitively distinct, after successful construction,
lookup by any casing of a well-formed line's name returns the record built
from that line. -/
theorem C1_theorem (ls : List Line) (l : Line) (p : Paper) (q : String)
    (hdist : ls.Pairwise (fun a b => caseEq (lineName a) (lineName b) = false))
    (hret : (paperinit (some ls)).1 = 0)
    (hmem : l ∈ ls) (hp : lineRecord l = some p)
    (hq : caseEq q (lineName l) = true) :
    paperinfo (paperinit (some ls)).2 q = some p :=
  paperinitLines_lookup ls [] l p q hdist hret hmem hp hq

/-- C1 witness: a two-line file (A4, letter); looking up "a4" returns the
A4 record. -/
theorem C1_witness :
    paperinfo (paperinit (some
        [[⟨"A4", 0, false⟩, ⟨"595", 595, false⟩, ⟨"842", 842, false⟩],
         [⟨"letter", 0, false⟩, ⟨"612", 612, false⟩, ⟨"792", 792, false⟩]])).2 "a4"
      = some ⟨"A4", 595, 842⟩ :=
  C1_theorem
    [[⟨"A4", 0, false⟩, ⟨"595", 595, false⟩, ⟨"842", 842, false⟩],
     [⟨"letter", 0, false⟩, ⟨"612", 612, false⟩, ⟨"792", 792, false⟩]]
    [⟨"A4", 0, false⟩, ⟨"595", 595, false⟩, ⟨"842", 842, false⟩]
    ⟨"A4", 595, 842⟩ "a4" (by decide) (by decide) (by decide) (by decide) (by decide)

/-- C2 is false of the code: `defaultpapername` (paper.c lines 199-218)
reads no environment variable at all. With the paper-size variable set to
"Legal" in the process environment: on a platform whose locale facility
reports 210 by 297 mm and a catalog holding A4, it returns "A4"; on a
platform without the locale facility it returns the compiled-in
PAPERSIZE -- never "Legal". -/
theorem C2_counterexample :
    defaultpapername (some (210, 297)) [⟨"A4", 595, 842⟩] "letter" = "A4" ∧
    defaultpapername none [⟨"A4", 595, 842⟩] "letter" = "letter" ∧
    ("A4" : String) ≠ "Legal" ∧ ("letter" : String) ≠ "Legal" := by
  have hw : PT_TO_MM 595 = 210 := by
    unfold PT_TO_MM
    rw [Int.floor_eq_iff] <;> norm_num
  have hh : PT_TO_MM 842 = 297 := by
    unfold PT_TO_MM
    rw [Int.floor_eq_iff] <;> norm_num
  refine ⟨?_, rfl, by decide, by decide⟩
  simp [defaultpapername, List.find?_cons, hw, hh]

/-- C2 (amended): the environment override is implemented by
`systempapername`, not `defaultpapername`: when the paper-size variable is
set and non-empty, the result is derived from its value alone -- the
configuration file is never consulted and there is no locale step -- and
the value is returned as-is whenever no catalog record matches it
case-insensitively (a matching record would make the canonical stored name
be returned instead). -/
theorem C2_theorem (v : String) (conf : Option String) (cat : Catalog)
    (ps : String) (hv : v ≠ "") (hnf : paperinfo cat v = none) :
    systempapername (some v) conf cat ps = v := by
  unfold systempapername
  simp only [hnf]

/-- C2 witness: variable "Legal", a configuration file naming "a4", an A4
catalog; systempapername returns "Legal". -/
theorem C2_witness :
    systempapername (some "Legal") (some "a4") [⟨"A4", 595, 842⟩] "letter"
      = "Legal" :=
  C2_theorem "Legal" (some "a4") [⟨"A4", 595, 842⟩] "letter"
    (by decide) (by decide)

/-- C3 is false of the code: the `papers` table is created before the
specification file is read and records inserted before (and on) a failing
line stay in it. File: a clean letter line, then a two-token line;
paperinit returns 2 and the letter record is still reachable through
paperinfo. -/
theorem C3_counterexample :
    (paperinit (some
        [[⟨"letter", 0, false⟩, ⟨"612", 612, false⟩, ⟨"792", 792, false⟩],
         [⟨"bad", 0, false⟩, ⟨"1", 1, false⟩]])).1 = 2 ∧
    paperinfo (paperinit (some
        [[⟨"letter", 0, false⟩, ⟨"612", 612, false⟩, ⟨"792", 792, false⟩],
         [⟨"bad", 0, false⟩, ⟨"1", 1, false⟩]])).2 "letter"
      = some ⟨"letter", 612, 792⟩ := by
  decide

/-- C3 (amended): on failure paperinit returns a single nonzero code, but
the global catalog remains a usable object: for a file whose first line is
clean and whose second line is erroneous, the returned table still holds
the first line's record, reachable via paperinfo, while the error code of
the failing line is reported. -/
theorem C3_theorem (l b : Line) (rest : List Line) (p : Paper)
    (hl : lineRet l = 0) (hp : lineRecord l = some p)
    (hb : lineRet b ≠ 0) (hbname : caseEq p.name (lineName b) = false) :
    (paperinit (some (l :: b :: rest))).1 = lineRet b ∧
    paperinfo (paperinit (some (l :: b :: rest))).2 p.name = some p := by
  have hret1 : (procline [] l).1 = 0 := by rw [procline_eq]; exact hl
  have hcat1 : (procline [] l).2 = hash_insert [] p := by
    rw [procline_eq]; simp only [hp]
  have hstep : paperinit (some (l :: b :: rest)) =
      paperinitLines (procline [] l).2 (b :: rest) := by
    show paperinitLines [] (l :: b :: rest) = _
    conv_lhs => rw [paperinitLines]
    rw [if_pos hret1]
  have hretb : (procline (procline [] l).2 b).1 = lineRet b := by
    rw [procline_eq]
  have hne : ¬ (procline (procline [] l).2 b).1 = 0 := by
    rw [hretb]; exact hb
  have hstep2 : paperinitLines (procline [] l).2 (b :: rest) =
      procline (procline [] l).2 b := by
    conv_lhs => rw [paperinitLines]
    rw [if_neg hne]
  rw [hstep, hstep2]
  refine ⟨hretb, ?_⟩
  rw [procline_lookup_no_match _ b p.name hbname, hcat1]
  exact paperinfo_insert_match [] p p.name (caseEq_refl p.name)

/-- C3 witness: the letter-then-bad file; paperinit reports 2 and letter
stays reachable. -/
theorem C3_witness :
    (paperinit (some
        [[⟨"letter", 0, false⟩, ⟨"612", 612, false⟩, ⟨"792", 792, false⟩],
         [⟨"bad", 0, false⟩, ⟨"1", 1, false⟩]])).1
      = lineRet [⟨"bad", 0, false⟩, ⟨"1", 1, false⟩] ∧
    paperinfo (paperinit (some
        [[⟨"letter", 0, false⟩, ⟨"612", 612, false⟩, ⟨"792", 792, false⟩],
         [⟨"bad", 0, false⟩, ⟨"1", 1, false⟩]])).2 "letter"
      = some ⟨"letter", 612, 792⟩ :=
  C3_theorem
    [⟨"letter", 0, false⟩, ⟨"612", 612, false⟩, ⟨"792", 792, false⟩]
    [⟨"bad", 0, false⟩, ⟨"1", 1, false⟩] [] ⟨"letter", 612, 792⟩
    (by decide) (by decide) (by decide) (by decide)

/-- C4: a specification line carrying a recognized unit stores the same
dimensions as the equivalent unit-less line whose width and height are
pre-multiplied by that unit's factor: the two one-line files build
identical catalogs (and both succeed). -/
theorem C4_theorem (name wstr hstr u w2 h2 : Tok)
    (hu : unitfactor u.str ≠ 0)
    (hw : w2.val = wstr.val * unitfactor u.str)
    (hh : h2.val = hstr.val * unitfactor u.str)
    (hwe : wstr.err = false) (hhe : hstr.err = false)
    (hwe2 : w2.err = false) (hhe2 : h2.err = false) :
    paperinit (some [[name, wstr, hstr, u]])
      = paperinit (some [[name, w2, h2]]) := by
  show paperinitLines [] _ = paperinitLines [] _
  unfold paperinitLines
  simp [procline, hu, hwe, hhe, hwe2, hhe2, hw, hh]

/-- C4 witness: "letter 612 792 pt" and "letter 8.5 11" build the same
catalog. -/
theorem C4_witness :
    paperinit (some [[⟨"letter", 0, false⟩, ⟨"612", 612, false⟩,
                      ⟨"792", 792, false⟩, ⟨"pt", 0, false⟩]])
      = paperinit (some [[⟨"letter", 0, false⟩, ⟨"8.5", 17/2, false⟩,
                          ⟨"11", 11, false⟩]]) :=
  C4_theorem ⟨"letter", 0, false⟩ ⟨"612", 612, false⟩ ⟨"792", 792, false⟩
    ⟨"pt", 0, false⟩ ⟨"8.5", 17/2, false⟩ ⟨"11", 11, false⟩
    (by rw [show unitfactor "pt" = 1/72 from rfl]; norm_num)
    (by rw [show unitfactor "pt" = 1/72 from rfl]; norm_num)
    (by rw [show unitfactor "pt" = 1/72 from rfl]; norm_num)
    rfl rfl rfl rfl

/-- C5: whichever of the environment variable (when set) or the
configuration file supplies the name, systempapername returns the
catalog's canonically-cased stored name on a case-insensitive match and
the raw name unchanged otherwise. -/
theorem C5_theorem (env conf : Option String) (n : String) (cat : Catalog)
    (ps : String)
    (hsrc : env = some n ∨ (env = none ∧ conf = some n)) :
    systempapername env conf cat ps =
      match paperinfo cat n with
      | some pp => pp.name
      | none => n := by
  rcases hsrc with rfl | ⟨rfl, rfl⟩ <;> rfl

/-- C5 witness: the configuration file says "a4", the catalog stores "A4";
systempapername returns "A4". -/
theorem C5_witness :
    systempapername none (some "a4") [⟨"A4", 595, 842⟩] "letter" = "A4" := by
  rw [C5_theorem none (some "a4") "a4" [⟨"A4", 595, 842⟩] "letter"
    (Or.inr ⟨rfl, rfl⟩)]
  decide

/-- C6 is false of the code for non-numeric tokens: glibc strtod on "abc"
returns 0 and leaves errno untouched, so the line "foo abc 1" does not
abort construction -- paperinit succeeds with ret 0 and stores the record
("foo", 0, 1). -/
theorem C6_counterexample :
    paperinit (some [[⟨"foo", 0, false⟩, ⟨"abc", 0, false⟩, ⟨"1", 1, false⟩]])
      = (0, [⟨"foo", 0, 1⟩]) := by
  decide

/-- C6 (amended): construction fails with ret 1 when strtod reports a
width or height error through errno, which glibc does exactly for
out-of-range input; a non-numeric token is read as 0 with no error. -/
theorem C6_theorem (name wstr hstr : Tok) (rest : List Tok) (ls : List Line)
    (herr : wstr.err = true ∨ hstr.err = true) :
    (paperinit (some ((name :: wstr :: hstr :: rest) :: ls))).1 = 1 := by
  have h1 : lineRet (name :: wstr :: hstr :: rest) = 1 :=
    (lineRet_one_iff _).mpr
      ⟨name, wstr, hstr, rest, rfl,
       herr.elim Or.inl (fun h => Or.inr (Or.inl h))⟩
  have hstop := paperinitLines_stop [] ls (name :: wstr :: hstr :: rest) []
    (by intro x hx; cases hx) (by rw [h1]; decide)
  simpa [h1] using hstop.2

/-- C6 witness: a line whose width token "9e999999" makes strtod set
errno (ERANGE); paperinit reports 1. -/
theorem C6_witness :
    (paperinit (some [[⟨"huge", 0, false⟩, ⟨"9e999999", 0, true⟩,
                       ⟨"11", 11, false⟩]])).1 = 1 :=
  C6_theorem ⟨"huge", 0, false⟩ ⟨"9e999999", 0, true⟩ ⟨"11", 11, false⟩ [] []
    (Or.inl rfl)

/-- C7: inserting a record whose name already exists in the catalog under
case-insensitive comparison replaces the old record with the new one: the
new record is what lookup now returns and the old record is gone, so the
last occurrence of a name wins. (`hash_insert` is modelled from the spec:
gnulib hash.c is not among the sources.) -/
theorem C7_theorem (cat : Catalog) (p old : Paper) (hold : old ∈ cat)
    (hname : caseEq old.name p.name = true) (hne : old ≠ p) :
    paperinfo (hash_insert cat p) p.name = some p ∧
    old ∉ hash_insert cat p := by
  constructor
  · exact paperinfo_insert_match cat p p.name (caseEq_refl p.name)
  · have hany : cat.any (fun q => caseEq q.name p.name) = true :=
      List.any_of_mem (p := fun q => caseEq q.name p.name) hold hname
    unfold hash_insert
    rw [if_pos hany]
    intro hmem
    rcases List.mem_map.mp hmem with ⟨q, hq, hqe⟩
    by_cases hc : caseEq q.name p.name = true
    · rw [if_pos hc] at hqe
      exact hne hqe.symm
    · rw [if_neg hc] at hqe
      rw [hqe] at hc
      exact hc hname

/-- C7 witness: inserting ("a4", 1, 2) over a catalog holding
("A4", 595, 842) makes lookup return the new record and removes the old
one. -/
theorem C7_witness :
    paperinfo (hash_insert [⟨"A4", 595, 842⟩] ⟨"a4", 1, 2⟩) "a4"
      = some ⟨"a4", 1, 2⟩ ∧
    (⟨"A4", 595, 842⟩ : Paper) ∉ hash_insert [⟨"A4", 595, 842⟩] ⟨"a4", 1, 2⟩ :=
  C7_theorem [⟨"A4", 595, 842⟩] ⟨"a4", 1, 2⟩ ⟨"A4", 595, 842⟩
    (by decide) (by decide) (by decide)

/-- C8 is false as stated: real catalogs contain distinct names with equal
dimensions (e.g. letter and ansia, both 612 by 792 points). Building from
such a file succeeds and ansia's record is in the catalog, yet lookup by
ansia's own dimensions returns the letter record, whose name differs. -/
theorem C8_counterexample :
    (⟨"ansia", 612, 792⟩ : Paper) ∈
      (paperinit (some
        [[⟨"letter", 0, false⟩, ⟨"612", 612, false⟩, ⟨"792", 792, false⟩],
         [⟨"ansia", 0, false⟩, ⟨"612", 612, false⟩, ⟨"792", 792, false⟩]])).2 ∧
    paperwithsize (paperinit (some
        [[⟨"letter", 0, false⟩, ⟨"612", 612, false⟩, ⟨"792", 792, false⟩],
         [⟨"ansia", 0, false⟩, ⟨"612", 612, false⟩, ⟨"792", 792, false⟩]])).2
        612 792
      = some ⟨"letter", 612, 792⟩ ∧
    ("letter" : String) ≠ "ansia" := by
  decide

/-- C8 (amended): `paperwithsize` applied to a record's own width and
height returns the first record in catalog order with exactly those
dimensions; that record carries the same name whenever no other record of
the catalog shares the dimensions. -/
theorem C8_theorem (cat : Catalog) (p : Paper) (hmem : p ∈ cat)
    (huniq : ∀ q ∈ cat, q.pswidth = p.pswidth → q.psheight = p.psheight →
      q.name = p.name) :
    ∃ r, paperwithsize cat p.pswidth p.psheight = some r ∧
      r.name = p.name := by
  have hsome : (cat.find? (fun q =>
      q.pswidth == p.pswidth && q.psheight == p.psheight)).isSome := by
    rw [List.find?_isSome]
    exact ⟨p, hmem, by simp⟩
  rcases Option.isSome_iff_exists.mp hsome with ⟨r, hr⟩
  refine ⟨r, hr, ?_⟩
  have hrmem : r ∈ cat := List.mem_of_find?_eq_some hr
  have hpred := List.find?_some hr
  simp only [Bool.and_eq_true, beq_iff_eq] at hpred
  exact huniq r hrmem hpred.1 hpred.2

/-- C8 witness: in a catalog holding only A4, lookup by A4's dimensions
returns a record named A4. -/
theorem C8_witness :
    ∃ r, paperwithsize [⟨"A4", 595, 842⟩] (⟨"A4", 595, 842⟩ : Paper).pswidth
        (⟨"A4", 595, 842⟩ : Paper).psheight = some r ∧
      r.name = (⟨"A4", 595, 842⟩ : Paper).name :=
  C8_theorem [⟨"A4", 595, 842⟩] ⟨"A4", 595, 842⟩ (by decide)
    (by
      intro q hq _ _
      rcases List.mem_singleton.mp hq with rfl
      rfl)

/-- C9: with the paper-size variable set to the empty string,
systempapername commits to the empty name: the configuration file and the
compiled-in default are never consulted, and since no catalog record has
an empty name (gettok never produces an empty token), the empty string is
returned. -/
theorem C9_theorem (conf : Option String) (cat : Catalog) (ps : String)
    (hnames : ∀ p ∈ cat, p.name ≠ "") :
    systempapername (some "") conf cat ps = "" := by
  have hlookup : paperinfo cat "" = none := by
    unfold paperinfo
    rw [List.find?_eq_none]
    intro p hp
    simp only [Bool.not_eq_true]
    cases h : caseEq p.name "" with
    | false => rfl
    | true =>
        exfalso
        have hlow : lowerStr p.name = lowerStr "" := (caseEq_iff _ _).mp h
        have hdata : p.name.data = [] := by
          have hmapnil : p.name.data.map Char.toLower = [] := hlow
          exact List.map_eq_nil_iff.mp hmapnil
        exact hnames p hp (String.ext hdata)
  unfold systempapername
  simp only [hlookup]

/-- C9 witness: variable set to "", a configuration file naming "a4", an
A4 catalog; systempapername returns "". -/
theorem C9_witness :
    systempapername (some "") (some "a4") [⟨"A4", 595, 842⟩] "letter" = "" :=
  C9_theorem (some "a4") [⟨"A4", 595, 842⟩] "letter" (by decide)

/-- C10: paperinit's return value: -1 when the specification file cannot
be opened; 0 when every line is clean; otherwise the ret of the first
erroneous line -- which is 2 exactly when that line has fewer than three
tokens, and 1 exactly when it has at least three and either a
width/height strtod error (out-of-range) or an unrecognized fourth-token
unit occurred, the two causes sharing one code -- and processing stops at
that line: the rest of the file is never read. (malloc is modelled as
succeeding; allocation failure, the other -1 source, is heap exhaustion
outside the embedding.) -/
theorem C10_theorem (ls pre post : List Line) (l : Line)
    (hsplit : ls = pre ++ l :: post)
    (hpre : ∀ x ∈ pre, lineRet x = 0)
    (herr : lineRet l ≠ 0) :
    (paperinit none).1 = -1 ∧
    (∀ xs : List Line, (∀ x ∈ xs, lineRet x = 0) →
      (paperinit (some xs)).1 = 0) ∧
    (paperinit (some ls)).1 = lineRet l ∧
    paperinit (some ls) = paperinit (some (pre ++ [l])) ∧
    (lineRet l = 2 ↔ l.length < 3) ∧
    (lineRet l = 1 ↔
      ∃ n w h r, l = n :: w :: h :: r ∧
        (w.err = true ∨ h.err = true ∨
         ∃ u, r.head? = some u ∧ unitfactor u.str = 0)) := by
  subst hsplit
  have hstop := paperinitLines_stop pre post l [] hpre herr
  exact ⟨rfl, fun xs hxs => paperinitLines_ret_ok xs [] hxs,
    hstop.2, hstop.1, lineRet_two_iff l, lineRet_one_iff l⟩

/-- C10 witness: a one-line file whose line has two tokens; paperinit
returns that line's ret (which is 2). -/
theorem C10_witness :
    (paperinit (some [[⟨"bad", 0, false⟩, ⟨"1", 1, false⟩]])).1
      = lineRet [⟨"bad", 0, false⟩, ⟨"1", 1, false⟩] := by
  have h := C10_theorem [[⟨"bad", 0, false⟩, ⟨"1", 1, false⟩]] [] []
    [⟨"bad", 0, false⟩, ⟨"1", 1, false⟩] rfl
    (by intro x hx; cases hx) (by decide)
  exact h.2.2.1

end Libpaper
